import Mathlib

/-!
Verification of the MerchantConnect client core against its specification.

The definitions below are shallow embeddings of the TypeScript source:

* the selection ledger and its toggle operation (App.tsx, toggleProductSelection),
* the catalog snapshot reaction (App.tsx, subscribeToProducts effect),
* the derived selection total (App.tsx, selectedTotal),
* the local search filter and visibility rules (App.tsx, filteredProducts,
  visibleSourceProducts, displayedProducts),
* the image variant dimension computation (AdminProductForm.tsx, createResizedBlob),
* the image add flow (AdminProductForm.tsx, handleImageUpload),
* the email and analysis collaborators (services/geminiService.ts),
* the render windowing state (the embedded App copy in types.ts).

JavaScript numbers are modelled as rationals where fractional values matter
and as integers where the source only ever uses integral values; JavaScript
objects used as string-keyed maps are modelled as association lists with the
insertion-order update semantics of object assignment.
-/

/-! ### Data model (types.ts) -/

/-- URLs of one image variant set; small and medium are optional on legacy
records, matching the Product interface in types.ts. -/
structure ImageUrls where
  small : Option String
  medium : Option String
  big : String
deriving DecidableEq, Repr

/-- One uploaded product image: original file name plus the variant URLs. -/
structure ProductImage where
  name : String
  urls : ImageUrls
deriving DecidableEq, Repr

/-- Product record as delivered by the document store. Fields that the code
guards with a typeof or presence check are modelled as Option: the source
reads stock with a default of 0 and wholesalePrice behind a typeof check. -/
structure Product where
  id : String
  name : String
  description : String
  wholesalePrice : Option ℚ
  retailPrice : Option ℚ
  stock : Option Int
  hidden : Bool
  createdAt : Option Int
  images : List ProductImage
deriving DecidableEq, Repr

/-- User profile fields used by the email collaborator. -/
structure UserProfile where
  uid : String
  email : Option String
  firstName : String
  lastName : String
  phone : String
deriving DecidableEq, Repr

/-! ### Selection ledger (App.tsx, selectionMap and toggleProductSelection)

The selectionMap is a JavaScript object mapping product id to quantity.
An association list keeps object key semantics: assignment to an existing
key replaces its value in place, assignment to a fresh key appends, and
delete removes the key. -/

/-- Ledger state: productId to requested quantity, in object key order. -/
abbrev Ledger := List (String × Int)

/-- Reading selectionMap at a key: the stored quantity, if the key exists. -/
def lookupQty (m : Ledger) (id : String) : Option Int :=
  (m.find? (fun e => e.1 == id)).map (fun e => e.2)

/-- JavaScript delete of a key from the object. -/
def removeEntry (m : Ledger) (id : String) : Ledger :=
  m.filter (fun e => !(e.1 == id))

/-- JavaScript assignment to a key: replace in place, or append when new. -/
def setEntry : Ledger → String → Int → Ledger
  | [], id, q => [(id, q)]
  | e :: rest, id, q =>
      if e.1 == id then (id, q) :: rest else e :: setEntry rest id q

/-- App.tsx toggleProductSelection: with an explicit quantity, non-positive
deletes the entry and positive stores it; without one, a truthy stored value
is deleted and otherwise the entry is set to 1 (JavaScript truthiness of the
stored number). -/
def toggleProductSelection (m : Ledger) (id : String) (qty : Option Int) : Ledger :=
  match qty with
  | some q => if q ≤ 0 then removeEntry m id else setEntry m id q
  | none =>
      match lookupQty m id with
      | some v => if v == 0 then setEntry m id 1 else removeEntry m id
      | none => setEntry m id 1

/-- The isSelected flag passed to a product card: double negation of the
stored value, so present-and-nonzero. -/
def isSelected (m : Ledger) (id : String) : Bool :=
  match lookupQty m id with
  | some v => !(v == 0)
  | none => false

/-- Every stored quantity is at least 1. -/
def wellFormedLedger (m : Ledger) : Prop := ∀ e ∈ m, 1 ≤ e.2

/-- Replay of a sequence of toggle calls from the initial empty ledger. -/
def applyToggles (ops : List (String × Option Int)) : Ledger :=
  ops.foldl (fun acc op => toggleProductSelection acc op.1 op.2) []

theorem lookupQty_setEntry_self (m : Ledger) (id : String) (q : Int) :
    lookupQty (setEntry m id q) id = some q := by
  induction m with
  | nil => simp [setEntry, lookupQty, List.find?]
  | cons e rest ih =>
      by_cases h : e.1 == id
      · simp [setEntry, h, lookupQty, List.find?]
      · simpa [setEntry, h, lookupQty, List.find?] using ih

theorem lookupQty_setEntry_ne (m : Ledger) (id other : String) (q : Int)
    (h : other ≠ id) :
    lookupQty (setEntry m id q) other = lookupQty m other := by
  induction m with
  | nil =>
      have hio : ¬((id == other) = true) := by
        simp only [beq_iff_eq]
        exact fun hc => h hc.symm
      simp [setEntry, lookupQty, List.find?, hio]
  | cons e rest ih =>
      by_cases he : (e.1 == id) = true
      · have he' : e.1 = id := by simpa using he
        have hio : ¬((id == other) = true) := by
          simp only [beq_iff_eq]
          exact fun hc => h hc.symm
        have heo : ¬((e.1 == other) = true) := by
          simp only [beq_iff_eq, he']
          exact fun hc => h hc.symm
        simp [setEntry, he, lookupQty, List.find?, heo, hio]
      · by_cases heo : (e.1 == other) = true
        · simp [setEntry, he, lookupQty, List.find?, heo]
        · simpa [setEntry, he, lookupQty, List.find?, heo] using ih

theorem lookupQty_removeEntry_self (m : Ledger) (id : String) :
    lookupQty (removeEntry m id) id = none := by
  induction m with
  | nil => simp [removeEntry, lookupQty]
  | cons e rest ih =>
      by_cases h : (e.1 == id) = true
      · rw [removeEntry, List.filter_cons_of_neg (by simp [h])]
        exact ih
      · rw [removeEntry, List.filter_cons_of_pos (by simp [h])]
        rw [lookupQty, List.find?]
        simp only [h]
        exact ih

theorem lookupQty_removeEntry_ne (m : Ledger) (id other : String)
    (h : other ≠ id) :
    lookupQty (removeEntry m id) other = lookupQty m other := by
  induction m with
  | nil => simp [removeEntry, lookupQty]
  | cons e rest ih =>
      by_cases he : e.1 == id
      · have he' : e.1 = id := by simpa using he
        have heo : ¬(e.1 == other) := by
          simp only [beq_iff_eq, he']
          exact fun hc => h hc.symm
        simpa [removeEntry, he, lookupQty, List.find?, heo] using ih
      · by_cases heo : e.1 == other
        · simp [removeEntry, he, lookupQty, List.find?, heo]
        · simpa [removeEntry, he, lookupQty, List.find?, heo] using ih

theorem wellFormed_removeEntry (m : Ledger) (id : String)
    (hm : wellFormedLedger m) : wellFormedLedger (removeEntry m id) := by
  intro e he
  exact hm e (List.mem_of_mem_filter he)

theorem wellFormed_setEntry : ∀ (m : Ledger) (id : String) (q : Int),
    wellFormedLedger m → 1 ≤ q → wellFormedLedger (setEntry m id q)
  | [], _, q, _, hq => by
      intro e he
      simp only [setEntry, List.mem_singleton] at he
      simpa [he] using hq
  | x :: rest, id, q, hm, hq => by
      intro e he
      by_cases h : (x.1 == id) = true
      · rw [setEntry, if_pos h] at he
        rcases List.mem_cons.mp he with he1 | he2
        · simpa [he1] using hq
        · exact hm e (List.mem_cons_of_mem _ he2)
      · rw [setEntry, if_neg h] at he
        rcases List.mem_cons.mp he with he1 | he2
        · exact hm e (by simp [he1])
        · exact wellFormed_setEntry rest id q
            (fun a ha => hm a (List.mem_cons_of_mem _ ha)) hq e he2

theorem lookupQty_wellFormed_pos (m : Ledger) (id : String) (v : Int)
    (hm : wellFormedLedger m) (h : lookupQty m id = some v) : 1 ≤ v := by
  unfold lookupQty at h
  cases hfind : m.find? (fun e => e.1 == id) with
  | none => simp [hfind] at h
  | some e =>
      have hmem : e ∈ m := List.mem_of_find?_eq_some hfind
      have := hm e hmem
      simp [hfind] at h
      omega

theorem wellFormed_toggle (m : Ledger) (id : String) (qty : Option Int)
    (hm : wellFormedLedger m) :
    wellFormedLedger (toggleProductSelection m id qty) := by
  cases qty with
  | some q =>
      by_cases hq : q ≤ 0
      · simpa [toggleProductSelection, hq] using wellFormed_removeEntry m id hm
      · have : 1 ≤ q := by omega
        simpa [toggleProductSelection, hq] using wellFormed_setEntry m id q hm this
  | none =>
      cases hl : lookupQty m id with
      | none =>
          simpa [toggleProductSelection, hl] using
            wellFormed_setEntry m id 1 hm (by omega)
      | some v =>
          have hv : 1 ≤ v := lookupQty_wellFormed_pos m id v hm hl
          have hvz : ¬(v == 0) := by
            simp only [beq_iff_eq]
            omega
          simpa [toggleProductSelection, hl, hvz] using
            wellFormed_removeEntry m id hm

theorem wellFormed_applyToggles (ops : List (String × Option Int)) :
    wellFormedLedger (applyToggles ops) := by
  have main : ∀ (l : List (String × Option Int)) (m : Ledger),
      wellFormedLedger m →
      wellFormedLedger (l.foldl (fun acc op => toggleProductSelection acc op.1 op.2) m) := by
    intro l
    induction l with
    | nil => intro m hm; simpa using hm
    | cons op rest ih =>
        intro m hm
        exact ih _ (wellFormed_toggle m op.1 op.2 hm)
  exact main ops [] (by intro e he; simp at he)

/-! ### Catalog snapshot reaction (App.tsx, subscribeToProducts effect)

The subscription callback normalizes stock (default 0) and replaces the
product list; it does not touch the selection ledger. -/

/-- Normalization applied to every incoming snapshot record: stock defaults
to 0 when absent. -/
def normalizeSnapshot (data : List Product) : List Product :=
  data.map (fun p => { p with stock := some (p.stock.getD 0) })

/-- The two pieces of state the claims concern: the mirrored product list
and the selection ledger. -/
structure AppState where
  products : List Product
  selectionMap : Ledger
deriving DecidableEq, Repr

/-- Events that mutate that state: a snapshot delivery from the document
store, or a toggle call from a product card. -/
inductive AppEvent
  | snapshot (data : List Product)
  | toggle (id : String) (qty : Option Int)

/-- One state transition of the top-level view. -/
def stepApp (st : AppState) : AppEvent → AppState
  | AppEvent.snapshot data =>
      { products := normalizeSnapshot data, selectionMap := st.selectionMap }
  | AppEvent.toggle id qty =>
      { products := st.products,
        selectionMap := toggleProductSelection st.selectionMap id qty }

/-- Replay of an event sequence from the initial empty state. -/
def runApp (evs : List AppEvent) : AppState :=
  evs.foldl stepApp { products := [], selectionMap := [] }

/-! ### Derived selection total (App.tsx, selectedTotal) -/

/-- The typeof guard on wholesalePrice: non-number reads as 0. -/
def wholesalePriceOrZero (p : Product) : ℚ :=
  match p.wholesalePrice with
  | some w => w
  | none => 0

/-- App.tsx selectedTotal: reduce over the ledger entries, resolving each
productId in the current snapshot and skipping unresolvable entries. -/
def selectedTotal (m : Ledger) (products : List Product) : ℚ :=
  m.foldl
    (fun sum e =>
      match products.find? (fun p => p.id == e.1) with
      | none => sum
      | some prod => sum + wholesalePriceOrZero prod * (e.2 : ℚ))
    0

/-- Specification-side contribution of one ledger entry: quantity times the
wholesale price of the resolved product, 0 when the product is unknown. -/
def entryContribution (products : List Product) (e : String × Int) : ℚ :=
  match products.find? (fun p => p.id == e.1) with
  | none => 0
  | some prod => (e.2 : ℚ) * wholesalePriceOrZero prod

theorem selectedTotal_foldl (ps : List Product) :
    ∀ (m : Ledger) (a : ℚ),
      m.foldl
        (fun sum e =>
          match ps.find? (fun p => p.id == e.1) with
          | none => sum
          | some prod => sum + wholesalePriceOrZero prod * (e.2 : ℚ))
        a = a + (m.map (entryContribution ps)).sum := by
  intro m
  induction m with
  | nil => intro a; simp
  | cons e rest ih =>
      intro a
      rw [List.foldl_cons, ih, List.map_cons, List.sum_cons]
      cases hfind : ps.find? (fun p => p.id == e.1) with
      | none => simp [entryContribution, hfind]
      | some prod =>
          simp only [entryContribution, hfind]
          ring

/-- Sample product used in concrete evaluations. -/
def sampleWidget : Product :=
  { id := "p1", name := "Widget", description := "A widget",
    wholesalePrice := some 10, retailPrice := some 20, stock := some 3,
    hidden := false, createdAt := some 1, images := [] }

/-- Sample product A of the C3 example. -/
def sampleApple : Product :=
  { id := "A", name := "Apple", description := "",
    wholesalePrice := some 10, retailPrice := some 15, stock := some 5,
    hidden := false, createdAt := some 2, images := [] }

/-- C2: with an explicit quantity, q at most 0 leaves no entry and positive
q stores exactly q; a pure toggle deletes a present entry and creates
quantity 1 for an absent one; every ledger reachable by toggle calls stores
only quantities of at least 1, quantity 0 is never stored, and entry
absence coincides with not being selected. -/
theorem c2_toggle_quantity_semantics (m : Ledger) (id : String) (q : Int) :
    (q ≤ 0 → lookupQty (toggleProductSelection m id (some q)) id = none)
    ∧ (0 < q → lookupQty (toggleProductSelection m id (some q)) id = some q)
    ∧ (wellFormedLedger m → lookupQty m id ≠ none →
        lookupQty (toggleProductSelection m id none) id = none)
    ∧ (lookupQty m id = none →
        lookupQty (toggleProductSelection m id none) id = some 1)
    ∧ (∀ ops : List (String × Option Int), ∀ e ∈ applyToggles ops, 1 ≤ e.2)
    ∧ (wellFormedLedger m →
        (isSelected m id = true ↔ lookupQty m id ≠ none)
        ∧ lookupQty m id ≠ some 0) := by
  refine ⟨?_, ?_, ?_, ?_, ?_, ?_⟩
  · intro hq
    simp [toggleProductSelection, hq, lookupQty_removeEntry_self]
  · intro hq
    have hq' : ¬(q ≤ 0) := by omega
    simp [toggleProductSelection, hq', lookupQty_setEntry_self]
  · intro hm hne
    cases hl : lookupQty m id with
    | none => exact absurd hl hne
    | some v =>
        have hv : 1 ≤ v := lookupQty_wellFormed_pos m id v hm hl
        have hvz : ¬((v == 0) = true) := by
          simp only [beq_iff_eq]
          omega
        simp [toggleProductSelection, hl, hvz, lookupQty_removeEntry_self]
  · intro hl
    simp [toggleProductSelection, hl, lookupQty_setEntry_self]
  · exact fun ops => wellFormed_applyToggles ops
  · intro hm
    constructor
    · cases hl : lookupQty m id with
      | none => simp [isSelected, hl]
      | some v =>
          have hv : 1 ≤ v := lookupQty_wellFormed_pos m id v hm hl
          have hvz : ¬((v == 0) = true) := by
            simp only [beq_iff_eq]
            omega
          simp [isSelected, hl, hvz]
    · intro hl
      have := lookupQty_wellFormed_pos m id 0 hm hl
      omega

theorem c2_toggle_quantity_semantics_witness :
    lookupQty (toggleProductSelection [("a", 2)] "a" (some 0)) "a" = none
    ∧ lookupQty (toggleProductSelection [("a", 2)] "a" (some 5)) "a" = some 5
    ∧ lookupQty (toggleProductSelection [("a", 2)] "a" none) "a" = none
    ∧ lookupQty (toggleProductSelection [] "a" none) "a" = some 1 :=
  ⟨(c2_toggle_quantity_semantics [("a", 2)] "a" 0).1 (by decide),
   (c2_toggle_quantity_semantics [("a", 2)] "a" 5).2.1 (by decide),
   (c2_toggle_quantity_semantics [("a", 2)] "a" 0).2.2.1
     (by unfold wellFormedLedger; decide) (by decide),
   (c2_toggle_quantity_semantics [] "a" 0).2.2.2.1 (by decide)⟩

/-- C10: a toggle call touches at most the entry keyed by the given product
id; every other key has the same presence and quantity before and after. -/
theorem c10_toggle_frame (m : Ledger) (id other : String) (qty : Option Int)
    (h : other ≠ id) :
    lookupQty (toggleProductSelection m id qty) other = lookupQty m other := by
  cases qty with
  | some q =>
      by_cases hq : q ≤ 0
      · simp [toggleProductSelection, hq, lookupQty_removeEntry_ne m id other h]
      · simp [toggleProductSelection, hq, lookupQty_setEntry_ne m id other q h]
  | none =>
      cases hl : lookupQty m id with
      | none =>
          simp [toggleProductSelection, hl, lookupQty_setEntry_ne m id other 1 h]
      | some v =>
          by_cases hv : (v == 0) = true
          · simp [toggleProductSelection, hl, hv,
              lookupQty_setEntry_ne m id other 1 h]
          · simp [toggleProductSelection, hl, hv,
              lookupQty_removeEntry_ne m id other h]

theorem c10_toggle_frame_witness :
    lookupQty (toggleProductSelection [("a", 2), ("b", 3)] "a" (some 7)) "b" =
      some 3 :=
  (c10_toggle_frame [("a", 2), ("b", 3)] "a" "b" (some 7) (by decide)).trans
    (by decide)

/-- C1 counterexample: select product p1 with quantity 2, then deliver a
snapshot in which p1 has no stock field (normalized to stock 0). The ledger
entry survives and the product is still selected, so the state in which a
selected product has effective stock 0 is reachable: no auto-deselect
reaction exists. -/
theorem c1_counterexample_stock_zero_stays_selected :
    lookupQty (runApp [AppEvent.toggle "p1" (some 2),
        AppEvent.snapshot [{ sampleWidget with stock := none }]]).selectionMap
      "p1" = some 2
    ∧ isSelected (runApp [AppEvent.toggle "p1" (some 2),
        AppEvent.snapshot [{ sampleWidget with stock := none }]]).selectionMap
      "p1" = true
    ∧ (runApp [AppEvent.toggle "p1" (some 2),
        AppEvent.snapshot [{ sampleWidget with stock := none }]]).products =
      [{ sampleWidget with stock := some 0 }] := by
  refine ⟨?_, ?_, ?_⟩ <;> decide

/-- C1 amended: a catalog snapshot update replaces the product list with the
stock-normalized data and leaves the selection ledger exactly as it was; no
ledger entry is removed in reaction to a stock change, so the invariant that
no selected product has effective stock 0 is not maintained by the store. -/
theorem c1_snapshot_update_preserves_ledger (st : AppState) (data : List Product) :
    (stepApp st (AppEvent.snapshot data)).selectionMap = st.selectionMap
    ∧ (stepApp st (AppEvent.snapshot data)).products = normalizeSnapshot data :=
  ⟨rfl, rfl⟩

/-- C3: selectedTotal is the sum over ledger entries of quantity times the
wholesale price of the product resolved in the current snapshot, with an
unresolvable entry contributing 0; in particular a ledger with A at 2 and
an unknown B at 3 against a catalog where A has wholesale price 10 totals 20. -/
theorem c3_selectedTotal_characterization (m : Ledger) (ps : List Product) :
    selectedTotal m ps = (m.map (entryContribution ps)).sum
    ∧ selectedTotal [("A", 2), ("B", 3)] [sampleApple] = 20 := by
  constructor
  · rw [selectedTotal, selectedTotal_foldl ps m 0, zero_add]
  · show List.foldl _ 0 _ = 20
    have h1 : ("A" == "A") = true := by decide
    have h2 : ("A" == "B") = false := by decide
    rw [List.foldl_cons, List.foldl_cons, List.foldl_nil]
    norm_num [sampleApple, List.find?, wholesalePriceOrZero, h1, h2]

/-! ### Search and filter (App.tsx, visibleSourceProducts, filteredProducts,
displayedProducts)

String operations are embedded character-wise so that every definition
evaluates inside the kernel. -/

/-- JavaScript String.prototype.trim: whitespace stripped from both ends. -/
def jsTrim (s : String) : String :=
  String.mk
    (((s.data.dropWhile Char.isWhitespace).reverse.dropWhile
        Char.isWhitespace).reverse)

/-- JavaScript String.prototype.toLowerCase, character-wise. -/
def jsToLower (s : String) : String :=
  String.mk (s.data.map Char.toLower)

/-- Token characters matching at the head of the haystack characters. -/
def tokenAtHead : List Char → List Char → Bool
  | [], _ => true
  | _ :: _, [] => false
  | c :: cs, d :: ds => c == d && tokenAtHead cs ds

/-- JavaScript String.prototype.includes: the token occurs contiguously
somewhere in the haystack. -/
def strIncludes (hay tok : String) : Bool :=
  hay.data.tails.any (fun suf => tokenAtHead tok.data suf)

/-- Split into maximal runs of non-whitespace characters: the composition
of the whitespace-run split and filter(Boolean) used by the source. -/
def splitTokensGo : List Char → List Char → List String
  | [], acc => if acc.isEmpty then [] else [String.mk acc.reverse]
  | c :: cs, acc =>
      if c.isWhitespace then
        if acc.isEmpty then splitTokensGo cs []
        else String.mk acc.reverse :: splitTokensGo cs []
      else splitTokensGo cs (c :: acc)

/-- The search tokens of a query string. -/
def queryTokens (q : String) : List String :=
  splitTokensGo q.data []

/-- The lower-cased haystack of one product: name, a space, description. -/
def productHay (p : Product) : String :=
  jsToLower (p.name ++ " " ++ p.description)

/-- App.tsx filteredProducts: lower-cased trimmed query; empty keeps the
source list; otherwise keep products where some token occurs in the hay. -/
def filteredProducts (searchTerm : String) (visible : List Product) :
    List Product :=
  let q := jsToLower (jsTrim searchTerm)
  if q = "" then visible
  else
    let tokens := queryTokens q
    visible.filter (fun p => tokens.any (fun t => strIncludes (productHay p) t))

/-- App.tsx visibleSourceProducts: admins see everything, everyone else
only products that are not hidden. -/
def visibleSourceProducts (isAdmin : Bool) (products : List Product) :
    List Product :=
  if isAdmin then products else products.filter (fun p => !p.hidden)

/-- App.tsx displayedProducts: remote results (filtered for non-admins)
supersede the local path; otherwise the local filter over the
visibility-filtered list, or that list itself for a blank query. -/
def displayedProducts (isAdmin : Bool) (products : List Product)
    (searchTerm : String) (remoteResults : Option (List Product)) :
    List Product :=
  match remoteResults with
  | some r => if isAdmin then r else r.filter (fun p => !p.hidden)
  | none =>
      if jsTrim searchTerm = "" then visibleSourceProducts isAdmin products
      else filteredProducts searchTerm (visibleSourceProducts isAdmin products)

theorem string_mk_eq_empty_iff (l : List Char) : String.mk l = "" ↔ l = [] := by
  constructor
  · intro h
    simpa using congrArg String.data h
  · intro h
    rw [h]

theorem jsToLower_eq_empty_iff (s : String) : jsToLower s = "" ↔ s = "" := by
  cases s with
  | mk data =>
      rw [jsToLower]
      rw [string_mk_eq_empty_iff]
      rw [List.map_eq_nil_iff]
      exact (string_mk_eq_empty_iff data).symm

theorem tokenAtHead_iff : ∀ (t l : List Char),
    tokenAtHead t l = true ↔ t <+: l
  | [], l => by simp [tokenAtHead, List.nil_prefix]
  | c :: cs, [] => by simp [tokenAtHead]
  | c :: cs, d :: ds => by
      rw [tokenAtHead, Bool.and_eq_true, beq_iff_eq, List.cons_prefix_cons,
        tokenAtHead_iff cs ds]

theorem strIncludes_iff (hay tok : String) :
    strIncludes hay tok = true ↔ tok.data <:+: hay.data := by
  rw [strIncludes, List.any_eq_true, List.infix_iff_prefix_suffix]
  constructor
  · rintro ⟨suf, hmem, hhead⟩
    exact ⟨suf, (tokenAtHead_iff _ _).mp hhead, (List.mem_tails _ _).mp hmem⟩
  · rintro ⟨suf, hpre, hsuf⟩
    exact ⟨suf, (List.mem_tails _ _).mpr hsuf, (tokenAtHead_iff _ _).mpr hpre⟩

theorem filteredProducts_of_empty (s : String) (visible : List Product)
    (h : jsTrim s = "") : filteredProducts s visible = visible := by
  rw [filteredProducts]
  rw [h]
  rfl

theorem mem_filteredProducts_iff (s : String) (visible : List Product)
    (p : Product) :
    p ∈ filteredProducts s visible ↔
      p ∈ visible ∧ (jsTrim s = "" ∨
        ∃ t ∈ queryTokens (jsToLower (jsTrim s)),
          t.data <:+: (productHay p).data) := by
  by_cases h : jsToLower (jsTrim s) = ""
  · have htrim : jsTrim s = "" := (jsToLower_eq_empty_iff _).mp h
    rw [filteredProducts_of_empty s visible htrim]
    simp [htrim]
  · have htrim : jsTrim s ≠ "" := by
      intro hc
      exact h (by rw [hc]; rfl)
    rw [filteredProducts]
    simp only [if_neg h]
    rw [List.mem_filter, List.any_eq_true]
    simp only [strIncludes_iff, htrim, false_or]

/-- Hidden sample product used in visibility evaluations. -/
def sampleGadget : Product :=
  { id := "h1", name := "Gadget", description := "hidden item",
    wholesalePrice := some 7, retailPrice := some 9, stock := some 4,
    hidden := true, createdAt := some 3, images := [] }

/-- C4: the local filter lower-cases the trimmed query, splits it into
whitespace-separated tokens, and keeps exactly the products whose
lower-cased name-space-description contains at least one token as a
substring; a blank or whitespace-only query returns the source list
unchanged. -/
theorem c4_local_filter_characterization (searchTerm : String)
    (visible : List Product) :
    (jsTrim searchTerm = "" → filteredProducts searchTerm visible = visible)
    ∧ (∀ p, p ∈ filteredProducts searchTerm visible ↔
        p ∈ visible ∧ (jsTrim searchTerm = "" ∨
          ∃ t ∈ queryTokens (jsToLower (jsTrim searchTerm)),
            t.data <:+: (productHay p).data)) :=
  ⟨filteredProducts_of_empty searchTerm visible,
   fun p => mem_filteredProducts_iff searchTerm visible p⟩

theorem c4_local_filter_characterization_witness :
    jsTrim "   " = "" ∧ filteredProducts "   " [sampleApple] = [sampleApple] :=
  ⟨by decide,
   (c4_local_filter_characterization "   " [sampleApple]).1 (by decide)⟩

/-- C5: for every query and remote-result state, a non-admin viewer's
displayed list never contains a hidden product on either the local path or
the remote path; for an admin viewer no visibility filter is applied on
either path. -/
theorem c5_hidden_visibility (products : List Product) (q : String)
    (remote : Option (List Product)) :
    (∀ p ∈ displayedProducts false products q remote, p.hidden = false)
    ∧ displayedProducts true products q remote =
        (match remote with
         | some r => r
         | none => filteredProducts q products) := by
  constructor
  · intro p hp
    cases remote with
    | some r =>
        rw [displayedProducts] at hp
        simp only [Bool.false_eq_true, if_false] at hp
        have := (List.mem_filter.mp hp).2
        simpa using this
    | none =>
        rw [displayedProducts] at hp
        by_cases h : jsTrim q = ""
        · rw [if_pos h] at hp
          rw [visibleSourceProducts] at hp
          simp only [Bool.false_eq_true, if_false] at hp
          have := (List.mem_filter.mp hp).2
          simpa using this
        · rw [if_neg h] at hp
          have hmem := (mem_filteredProducts_iff q _ p).mp hp
          rw [visibleSourceProducts] at hmem
          simp only [Bool.false_eq_true, if_false] at hmem
          have := (List.mem_filter.mp hmem.1).2
          simpa using this
  · cases remote with
    | some r => rw [displayedProducts]; simp
    | none =>
        rw [displayedProducts]
        by_cases h : jsTrim q = ""
        · rw [if_pos h, visibleSourceProducts, if_pos rfl,
            filteredProducts_of_empty q products h]
        · rw [if_neg h, visibleSourceProducts, if_pos rfl]

theorem c5_hidden_visibility_witness :
    sampleApple.hidden = false :=
  (c5_hidden_visibility [sampleApple, sampleGadget] "" none).1 sampleApple
    (by decide)

/-! ### Image variant dimensions (AdminProductForm.tsx, createResizedBlob)

The target canvas dimensions: the requested short edge is capped at the
short edge of the source (never upscale), the scale is the ratio of the
capped edge to the source short edge, and both dimensions are scaled and
rounded with Math.round. The intermediate high-resolution surface does not
change the final canvas size, so it does not appear here. -/

/-- JavaScript Math.round for the nonneg values used here: floor of x+1/2. -/
def jsRound (x : ℚ) : ℤ := ⌊x + 1/2⌋

/-- Width and height of the generated variant for a source of w by h pixels
and a requested short edge. -/
def targetDims (w h shortEdge : ℕ) : ℤ × ℤ :=
  let imgShort : ℕ := min w h
  let useEdge : ℕ := min shortEdge imgShort
  let scale : ℚ := (useEdge : ℚ) / (imgShort : ℚ)
  (jsRound ((w : ℚ) * scale), jsRound ((h : ℚ) * scale))

theorem half_floor : ⌊(1/2 : ℚ)⌋ = 0 := by
  rw [Int.floor_eq_iff]
  norm_num

theorem jsRound_intCast (a : ℤ) : jsRound (a : ℚ) = a := by
  rw [jsRound, Int.floor_int_add, half_floor, add_zero]

theorem jsRound_le_of_le {x : ℚ} {a : ℤ} (h : x ≤ (a : ℚ)) : jsRound x ≤ a := by
  have h2 : x + 1/2 ≤ (a : ℚ) + 1/2 := by linarith
  have h3 := Int.floor_mono h2
  rw [jsRound]
  rw [Int.floor_int_add, half_floor, add_zero] at h3
  exact h3

theorem le_jsRound_of_le {x : ℚ} {a : ℤ} (h : (a : ℚ) ≤ x) : a ≤ jsRound x := by
  have h2 : (a : ℚ) + 1/2 ≤ x + 1/2 := by linarith
  have h3 := Int.floor_mono h2
  rw [jsRound]
  rw [Int.floor_int_add, half_floor, add_zero] at h3
  exact h3

theorem jsRound_mul_ratio_eq {b S : ℕ} (hb : 1 ≤ b) :
    jsRound ((b : ℚ) * ((S : ℚ) / (b : ℚ))) = (S : ℤ) := by
  have hbne : (b : ℚ) ≠ 0 := by
    have : (0 : ℚ) < b := by exact_mod_cast hb
    exact ne_of_gt this
  rw [mul_comm, div_mul_cancel₀ _ hbne]
  exact_mod_cast jsRound_intCast (S : ℤ)

theorem le_jsRound_mul_ratio {a b S : ℕ} (hb : 1 ≤ b) (hba : b ≤ a) :
    (S : ℤ) ≤ jsRound ((a : ℚ) * ((S : ℚ) / (b : ℚ))) := by
  have hbpos : (0 : ℚ) < b := by exact_mod_cast hb
  have hratio : (0 : ℚ) ≤ (S : ℚ) / (b : ℚ) := by positivity
  have hstep : (b : ℚ) * ((S : ℚ) / (b : ℚ)) ≤ (a : ℚ) * ((S : ℚ) / (b : ℚ)) := by
    have : (b : ℚ) ≤ (a : ℚ) := by exact_mod_cast hba
    exact mul_le_mul_of_nonneg_right this hratio
  have hback : (b : ℚ) * ((S : ℚ) / (b : ℚ)) = (S : ℚ) := by
    rw [mul_comm, div_mul_cancel₀ _ (ne_of_gt hbpos)]
  apply le_jsRound_of_le
  calc ((S : ℤ) : ℚ) = (S : ℚ) := by push_cast; ring
    _ = (b : ℚ) * ((S : ℚ) / (b : ℚ)) := hback.symm
    _ ≤ _ := hstep

/-- C6: for a positive source of w by h pixels and each requested short
edge, the variant dimensions are round of each dimension times the scale
min(edge, min(w,h)) / min(w,h); no variant exceeds the source, a source
already small enough is kept at exactly its own size, and a large enough
source gets a variant whose short edge is exactly the requested size; the
3000 by 1500 example yields 400 by 200, 1200 by 600, and 3000 by 1500. -/
theorem c6_variant_dimensions (w h S : ℕ) (hw : 1 ≤ w) (hh : 1 ≤ h)
    (hS : 1 ≤ S) :
    ((targetDims w h S).1 ≤ (w : ℤ) ∧ (targetDims w h S).2 ≤ (h : ℤ))
    ∧ (min w h ≤ S → targetDims w h S = ((w : ℤ), (h : ℤ)))
    ∧ (S ≤ min w h →
        min (targetDims w h S).1 (targetDims w h S).2 = (S : ℤ))
    ∧ targetDims 3000 1500 200 = (400, 200)
    ∧ targetDims 3000 1500 600 = (1200, 600)
    ∧ targetDims 3000 1500 2000 = (3000, 1500) := by
  have hshort : 1 ≤ min w h := le_min hw hh
  have hshortpos : (0 : ℚ) < ((min w h : ℕ) : ℚ) := Nat.cast_pos.mpr hshort
  have hscale_le_one :
      ((min S (min w h) : ℕ) : ℚ) / ((min w h : ℕ) : ℚ) ≤ 1 := by
    rw [div_le_one hshortpos]
    exact_mod_cast min_le_right S (min w h)
  have hscale_nonneg :
      (0 : ℚ) ≤ ((min S (min w h) : ℕ) : ℚ) / ((min w h : ℕ) : ℚ) := by
    positivity
  refine ⟨⟨?_, ?_⟩, ?_, ?_, ?_, ?_, ?_⟩
  · apply jsRound_le_of_le
    have := mul_le_of_le_one_right (by positivity : (0:ℚ) ≤ (w : ℚ)) hscale_le_one
    simpa [targetDims] using this
  · apply jsRound_le_of_le
    have := mul_le_of_le_one_right (by positivity : (0:ℚ) ≤ (h : ℚ)) hscale_le_one
    simpa [targetDims] using this
  · intro hsmall
    have huse : min S (min w h) = min w h := Nat.min_eq_right hsmall
    have hone : ((min S (min w h) : ℕ) : ℚ) / ((min w h : ℕ) : ℚ) = 1 := by
      rw [huse]
      exact div_self (ne_of_gt hshortpos)
    simp only [targetDims]
    rw [hone, mul_one, mul_one]
    rw [show ((w : ℚ)) = (((w : ℤ) : ℚ)) by push_cast; ring,
      show ((h : ℚ)) = (((h : ℤ) : ℚ)) by push_cast; ring]
    rw [jsRound_intCast, jsRound_intCast]
  · intro hbig
    have huse : min S (min w h) = S :=
      Nat.min_eq_left hbig
    rcases Nat.le_total w h with hwh | hhw
    · have hmin : min w h = w := Nat.min_eq_left hwh
      simp only [targetDims]
      rw [huse, hmin]
      have h1 : jsRound ((w : ℚ) * ((S : ℚ) / (w : ℚ))) = (S : ℤ) :=
        jsRound_mul_ratio_eq hw
      have h2 : (S : ℤ) ≤ jsRound ((h : ℚ) * ((S : ℚ) / (w : ℚ))) :=
        le_jsRound_mul_ratio hw hwh
      rw [h1]
      exact min_eq_left h2
    · have hmin : min w h = h := Nat.min_eq_right hhw
      simp only [targetDims]
      rw [huse, hmin]
      have h1 : jsRound ((h : ℚ) * ((S : ℚ) / (h : ℚ))) = (S : ℤ) :=
        jsRound_mul_ratio_eq hh
      have h2 : (S : ℤ) ≤ jsRound ((w : ℚ) * ((S : ℚ) / (h : ℚ))) :=
        le_jsRound_mul_ratio hh hhw
      rw [h1]
      exact min_eq_right h2
  · norm_num [targetDims, jsRound]
  · norm_num [targetDims, jsRound]
  · norm_num [targetDims, jsRound]

theorem c6_variant_dimensions_witness :
    ((targetDims 3000 1500 200).1 ≤ (3000 : ℤ)
      ∧ (targetDims 3000 1500 200).2 ≤ (1500 : ℤ))
    ∧ min (targetDims 3000 1500 200).1 (targetDims 3000 1500 200).2 = 200 :=
  ⟨(c6_variant_dimensions 3000 1500 200 (by decide) (by decide) (by decide)).1,
   (c6_variant_dimensions 3000 1500 200 (by decide) (by decide)
      (by decide)).2.2.1 (by decide)⟩

/-! ### Image add flow (AdminProductForm.tsx, handleImageUpload)

The sequential steps of one image add: generate the medium, small and big
blobs, upload medium, small and big in that order, then append the variant
set and persist it when editing an existing product. A failure at any step
jumps to the catch branch, which only logs and alerts. Each generation step
is modelled by whether it succeeds and each upload by the URL it would
return on success. -/

/-- Outcomes of the six effectful steps of one image add. -/
structure UploadEnv where
  genMedium : Bool
  genSmall : Bool
  genBig : Bool
  upMedium : Option String
  upSmall : Option String
  upBig : Option String
deriving DecidableEq, Repr

/-- Result of one handleImageUpload run: the form's in-memory image list,
the images payload written to the product record (if any), the variant
blobs now residing in storage from this run, and whether the catch branch
ran. -/
structure UploadOutcome where
  images : List ProductImage
  persisted : Option (List ProductImage)
  storedBlobs : List String
  failed : Bool
deriving DecidableEq, Repr

/-- handleImageUpload for a file named fileName over the current in-memory
image list; hasProduct tells whether an existing product is being edited
(only then is the new list persisted). The catch branch deletes nothing,
so blobs uploaded before the failing step stay in storage. -/
def handleImageUpload (env : UploadEnv) (fileName : String)
    (images : List ProductImage) (hasProduct : Bool) : UploadOutcome :=
  if !env.genMedium then ⟨images, none, [], true⟩
  else if !env.genSmall then ⟨images, none, [], true⟩
  else if !env.genBig then ⟨images, none, [], true⟩
  else
    match env.upMedium with
    | none => ⟨images, none, [], true⟩
    | some mediumURL =>
        match env.upSmall with
        | none => ⟨images, none, [mediumURL], true⟩
        | some smallURL =>
            match env.upBig with
            | none => ⟨images, none, [mediumURL, smallURL], true⟩
            | some bigURL =>
                let imageObj : ProductImage :=
                  { name := fileName,
                    urls := { small := some smallURL, medium := some mediumURL,
                              big := bigURL } }
                let newImages := images ++ [imageObj]
                ⟨newImages, if hasProduct then some newImages else none,
                  [mediumURL, smallURL, bigURL], false⟩

/-- Environment in which the small upload fails after the medium upload
succeeded. -/
def envSmallUploadFails : UploadEnv :=
  { genMedium := true, genSmall := true, genBig := true,
    upMedium := some "m-url", upSmall := none, upBig := some "b-url" }

/-- C7 counterexample: when the small-variant upload fails after the medium
variant was already uploaded, the operation fails and appends and persists
nothing, but the medium blob stays in storage: it is neither rolled back
nor is any incomplete marker recorded, contradicting the rollback half of
the claim. -/
theorem c7_counterexample_no_rollback :
    (handleImageUpload envSmallUploadFails "f.jpg" [] true).failed = true
    ∧ (handleImageUpload envSmallUploadFails "f.jpg" [] true).images = []
    ∧ (handleImageUpload envSmallUploadFails "f.jpg" [] true).persisted = none
    ∧ (handleImageUpload envSmallUploadFails "f.jpg" [] true).storedBlobs =
        ["m-url"]
    ∧ ["m-url"] ≠ ([] : List String) := by
  refine ⟨?_, ?_, ?_, ?_, ?_⟩ <;> decide

/-- C7 amended: if generating or uploading any of the three variants fails,
the whole image add fails as one error with the in-memory image list
unchanged and nothing persisted to the product record; however, variant
blobs uploaded before the failing step are not rolled back and remain in
storage, and nothing marks the set incomplete. -/
theorem c7_failure_appends_and_persists_nothing (env : UploadEnv)
    (fileName : String) (images : List ProductImage) (hasProduct : Bool)
    (h : (handleImageUpload env fileName images hasProduct).failed = true) :
    (handleImageUpload env fileName images hasProduct).images = images
    ∧ (handleImageUpload env fileName images hasProduct).persisted = none := by
  rw [handleImageUpload] at h ⊢
  by_cases h1 : env.genMedium
  · by_cases h2 : env.genSmall
    · by_cases h3 : env.genBig
      · simp only [h1, h2, h3, Bool.not_true, Bool.false_eq_true, if_false] at h ⊢
        cases hm : env.upMedium with
        | none => simp [hm]
        | some mURL =>
            cases hs : env.upSmall with
            | none => simp [hm, hs]
            | some sURL =>
                cases hb : env.upBig with
                | none => simp [hm, hs, hb]
                | some bURL => simp [hm, hs, hb] at h
      · simp [h1, h2, h3]
    · simp [h1, h2]
  · simp [h1]

theorem c7_failure_appends_and_persists_nothing_witness :
    (handleImageUpload envSmallUploadFails "f.jpg" [] true).images = []
    ∧ (handleImageUpload envSmallUploadFails "f.jpg" [] true).persisted = none :=
  c7_failure_appends_and_persists_nothing envSmallUploadFails "f.jpg" [] true
    (by decide)

/-! ### Text-generation collaborators (services/geminiService.ts)

Both functions first test whether the client was constructed (an API
credential exists) and throw otherwise; only a failure of the subsequent
API call is caught and replaced by the deterministic fallback. A thrown
error is modelled as Except.error with the message, and the API call by
the parsed response it would deliver, none meaning the call failed or
returned no text. -/

/-- Result shape of generateInterestEmail. -/
structure EmailContent where
  subject : String
  body : String
deriving DecidableEq, Repr

/-- Result shape of analyzeProductImage. -/
structure ImageAnalysis where
  name : String
  description : String
  retailPriceEstimate : ℚ
deriving DecidableEq, Repr

/-- Rendering of the wholesale price into the product list line. -/
def renderPrice : Option ℚ → String
  | some v => toString v
  | none => "undefined"

/-- The product list block shared by the prompt and the fallback body. -/
def productListText (products : List Product) : String :=
  String.intercalate "\n"
    (products.map (fun p =>
      "- " ++ p.name ++ " (Wholesale: $" ++ renderPrice p.wholesalePrice ++ ")"))

/-- The catch-branch fallback email of generateInterestEmail. -/
def emailFallback (user : UserProfile) (products : List Product) : EmailContent :=
  { subject := "Interest in " ++ toString products.length ++ " products",
    body := "Hi,\n\nI am interested in buying: \n" ++ productListText products
      ++ "\n\nPlease contact me at " ++ user.phone ++ "." }

/-- geminiService.ts generateInterestEmail: throws when no credential is
configured; otherwise returns the API response, or the fallback when the
call fails. -/
def generateInterestEmail (hasCredential : Bool)
    (apiResponse : Option EmailContent) (user : UserProfile)
    (products : List Product) : Except String EmailContent :=
  if !hasCredential then Except.error "API Key not found"
  else
    match apiResponse with
    | some content => Except.ok content
    | none => Except.ok (emailFallback user products)

/-- The catch-branch fallback analysis of analyzeProductImage. -/
def emptyAnalysis : ImageAnalysis :=
  { name := "", description := "", retailPriceEstimate := 0 }

/-- geminiService.ts analyzeProductImage: throws when no credential is
configured; otherwise returns the API response, or the empty analysis when
the call fails. -/
def analyzeProductImage (hasCredential : Bool)
    (apiResponse : Option ImageAnalysis) : Except String ImageAnalysis :=
  if !hasCredential then Except.error "API Key not found"
  else
    match apiResponse with
    | some a => Except.ok a
    | none => Except.ok emptyAnalysis

/-- Sample user for concrete evaluations. -/
def sampleMerchant : UserProfile :=
  { uid := "m@example.com", email := some "m@example.com",
    firstName := "Mia", lastName := "Chen", phone := "555-0100" }

/-- C9 counterexample: with no API credential configured, both collaborators
throw the error API Key not found instead of returning the deterministic
fallback, so the caller-visible operation fails. -/
theorem c9_counterexample_missing_credential_throws :
    generateInterestEmail false none sampleMerchant [sampleApple] =
      Except.error "API Key not found"
    ∧ analyzeProductImage false none = Except.error "API Key not found"
    ∧ (∀ content, generateInterestEmail false none sampleMerchant [sampleApple]
        ≠ Except.ok content)
    ∧ (∀ a, analyzeProductImage false none ≠ Except.ok a) := by
  refine ⟨rfl, rfl, ?_, ?_⟩
  · intro content h
    exact absurd h (by simp [generateInterestEmail])
  · intro a h
    exact absurd h (by simp [analyzeProductImage])

/-- C9 amended: with a credential configured, a failing collaborator call
is replaced by the deterministic local fallback of identical shape (for the
email: subject and body listing product names and wholesale prices and the
user phone; for the analysis: empty name and description and estimate 0);
with no credential configured, both functions throw API Key not found
rather than falling back. -/
theorem c9_fallback_only_on_api_failure (user : UserProfile)
    (products : List Product) (apiEmail : Option EmailContent)
    (apiAnalysis : Option ImageAnalysis) :
    generateInterestEmail true none user products =
      Except.ok (emailFallback user products)
    ∧ analyzeProductImage true none = Except.ok emptyAnalysis
    ∧ generateInterestEmail false apiEmail user products =
        Except.error "API Key not found"
    ∧ analyzeProductImage false apiAnalysis =
        Except.error "API Key not found" :=
  ⟨rfl, rfl, rfl, rfl⟩

/-! ### Render windowing (embedded App copy in types.ts)

Initial visibleCount from the viewport width breakpoints, and the
IntersectionObserver transition that grows it by one batch clamped to the
total item count. -/

/-- Rows revealed per batch (the ROWS_PER_BATCH constant). -/
def ROWS_PER_BATCH : ℕ := 2

/-- Column count for a viewport width: the fixed breakpoints. -/
def getColumnsForWidth (w : ℕ) : ℕ :=
  if w ≥ 1280 then 4
  else if w ≥ 1024 then 3
  else if w ≥ 640 then 2
  else 1

/-- Initial visibleCount state: one full batch for the current width. -/
def initialVisibleCount (w : ℕ) : ℕ :=
  getColumnsForWidth w * ROWS_PER_BATCH

/-- The sentinel-visible transition: grow by one batch, clamped to the
total number of displayed items. -/
def sentinelStep (cols total prev : ℕ) : ℕ :=
  min (prev + cols * ROWS_PER_BATCH) total

/-- C8: the initial visibleCount is columns times rowsPerBatch with columns
4, 3, 2 or 1 at the 1280, 1024 and 640 breakpoints; every sentinel event
sets visibleCount to the previous value plus one batch, clamped to the
total; with 4 columns and 20 items the sequence is 8, 16, then 20 rather
than 24. -/
theorem c8_render_windowing (w cols total prev : ℕ) :
    (1280 ≤ w → initialVisibleCount w = 4 * ROWS_PER_BATCH)
    ∧ (1024 ≤ w → w < 1280 → initialVisibleCount w = 3 * ROWS_PER_BATCH)
    ∧ (640 ≤ w → w < 1024 → initialVisibleCount w = 2 * ROWS_PER_BATCH)
    ∧ (w < 640 → initialVisibleCount w = 1 * ROWS_PER_BATCH)
    ∧ sentinelStep cols total prev = min (prev + cols * ROWS_PER_BATCH) total
    ∧ sentinelStep cols total prev ≤ total
    ∧ (prev + cols * ROWS_PER_BATCH ≤ total →
        sentinelStep cols total prev = prev + cols * ROWS_PER_BATCH)
    ∧ (initialVisibleCount 1280 = 8
        ∧ sentinelStep 4 20 8 = 16
        ∧ sentinelStep 4 20 16 = 20
        ∧ sentinelStep 4 20 16 ≠ 24) := by
  refine ⟨?_, ?_, ?_, ?_, rfl, ?_, ?_, by decide, by decide, by decide, by decide⟩
  · intro h1
    rw [initialVisibleCount, getColumnsForWidth, if_pos h1]
  · intro h1 h2
    rw [initialVisibleCount, getColumnsForWidth, if_neg (by omega),
      if_pos h1]
  · intro h1 h2
    rw [initialVisibleCount, getColumnsForWidth, if_neg (by omega),
      if_neg (by omega), if_pos h1]
  · intro h1
    rw [initialVisibleCount, getColumnsForWidth, if_neg (by omega),
      if_neg (by omega), if_neg (by omega)]
  · exact Nat.min_le_right _ _
  · intro h
    rw [sentinelStep]
    exact Nat.min_eq_left h

theorem c8_render_windowing_witness :
    initialVisibleCount 1280 = 4 * ROWS_PER_BATCH
    ∧ sentinelStep 4 20 8 = 8 + 4 * ROWS_PER_BATCH :=
  ⟨(c8_render_windowing 1280 4 20 8).1 (by decide),
   (c8_render_windowing 1280 4 20 8).2.2.2.2.2.2.1 (by decide)⟩
